import Mathlib

/-!
Verification development for the BIDS_creator_tool repository.

The repository consists of Python scripts that sort DICOM files into a
structured directory hierarchy, optionally anonymizing / remapping patient
identifiers, filtering by series criteria, assigning sequential counter
tokens, and tallying per-file outcomes.

This file gives a shallow embedding of the relevant functions:
pure Python helpers become Lean functions; global mutable dictionaries
(the counter registries, the missing-id set) become explicit state
passing; Python exceptions become an explicit `Except PyErr` monad;
external collaborators (pydicom decode/save, `pathvalidate.sanitize_filepath`,
the filesystem) become explicit parameters or a small filesystem model.
-/

namespace BIDS

/-- Python exception values that the embedded code can raise or catch. -/
inductive PyErr where
  | attributeError (attr : String)
  | osError (msg : String)
  | fileNotFound (path : String)
  | invalidDicom (msg : String)
  deriving DecidableEq, Repr

/-- A pydicom Dataset restricted to the tags the repository touches.
`none` models an absent tag; DICOM values are kept as opaque strings
(the scripts only ever pass them through `str`). -/
structure Dataset where
  patientID : Option String := none
  patientName : Option String := none
  patientBirthDate : Option String := none
  studyDate : Option String := none
  seriesNumber : Option String := none
  seriesDescription : Option String := none
  sopInstanceUID : Option String := none
  protocolName : Option String := none
  deriving DecidableEq, Repr

/-! ## String helpers modelling Python `str` methods -/

/-- Python `str.lower` (ASCII; the scripts only compare ASCII extensions). -/
def lowerStr (s : String) : String := String.mk (s.data.map Char.toLower)

/-- Python `str.upper` (ASCII; the series substrings compared are ASCII). -/
def upperStr (s : String) : String := String.mk (s.data.map Char.toUpper)

/-- Does the list start with the given pattern? (helper for `str` searches). -/
def startsWithL : List Char → List Char → Bool
  | _, [] => true
  | [], _ :: _ => false
  | a :: as, b :: bs => a == b && startsWithL as bs

/-- Python `str.endswith`. -/
def pyEndsWith (s suf : String) : Bool := startsWithL s.data.reverse suf.data.reverse

/-- Python substring containment `needle in hay` (scans left to right). -/
def hasSubstrL (needle : List Char) : List Char → Bool
  | [] => startsWithL [] needle
  | c :: t => startsWithL (c :: t) needle || hasSubstrL needle t

/-- Python `needle in hay` on strings. -/
def hasSubstr (hay needle : String) : Bool := hasSubstrL needle.data hay.data

/-- Last index at which character `c` occurs (Python `str.rfind`). -/
def lastIdxOf (c : Char) : List Char → Option Nat
  | [] => none
  | a :: t =>
    match lastIdxOf c t with
    | some i => some (i + 1)
    | none => if a = c then some 0 else none

/-- `os.path.basename` for POSIX paths: everything after the last slash. -/
def basename (p : String) : String :=
  match lastIdxOf '/' p.data with
  | none => p
  | some i => String.mk (p.data.drop (i + 1))

/-- Drop trailing occurrences of a character (Python `str.rstrip` on one char). -/
def dropTrailing (c : Char) (l : List Char) : List Char :=
  (l.reverse.dropWhile (fun a => a = c)).reverse

/-- `os.path.dirname` for POSIX paths: up to the last slash, with trailing
slashes stripped unless the head is all slashes. -/
def dirname (p : String) : String :=
  match lastIdxOf '/' p.data with
  | none => ""
  | some i =>
    let head := p.data.take (i + 1)
    if head.all (fun a => a = '/') then String.mk head
    else String.mk (dropTrailing '/' head)

/-- The whitespace characters Python `str.strip` removes (ASCII subset). -/
def pyWhitespace : List Char := [' ', '\t', '\n', '\r', Char.ofNat 11, Char.ofNat 12]

/-- Python `str.strip()`: remove leading and trailing whitespace. -/
def pyStrip (s : String) : String :=
  let l := s.data.dropWhile (fun c => decide (c ∈ pyWhitespace))
  String.mk ((l.reverse.dropWhile (fun c => decide (c ∈ pyWhitespace))).reverse)

/-- `os.path.join` for two POSIX components, as used by the scripts. -/
def pathJoin (a b : String) : String :=
  if startsWithL b.data ['/'] then b
  else if a = "" then b
  else if pyEndsWith a "/" then a ++ b
  else a ++ "/" ++ b

/-! ## Decimal rendering, modelling Python `f-string` integer formatting -/

/-- Character for a decimal digit. -/
def digitToChar (d : Nat) : Char := Char.ofNat (48 + d)

/-- Inverse of `digitToChar` on decimal digits. -/
def charToDigit (c : Char) : Nat := c.toNat - 48

/-- Little-endian decimal digits of `n`, with explicit fuel (fuel `≥ n` is
always enough, making the definition structurally recursive and kernel
reducible). -/
def digitsRevFuel : Nat → Nat → List Nat
  | 0, _ => []
  | _ + 1, 0 => []
  | fuel + 1, n => n % 10 :: digitsRevFuel fuel (n / 10)

/-- Decimal rendering of a natural number, as Python `str(n)` / `f"{n:d}"`. -/
def renderNat (n : Nat) : String :=
  if n = 0 then "0" else String.mk (((digitsRevFuel n n).map digitToChar).reverse)

/-- Zero padding to a minimum width, as Python `f"{n:0{w}d}"` applies. -/
def padZeros (w : Nat) (s : String) : String :=
  String.mk (List.replicate (w - s.data.length) '0' ++ s.data)

/-- `format_counter` from DICOMDIR_creation_tool.py:
`f"{prefix}{counter:0{length}d}"`. -/
def format_counter (counter : Nat) (pre : String) (width : Nat) : String :=
  pre ++ padZeros width (renderNat counter)

/-- Value of a little-endian decimal digit list. -/
def decodeLE : List Nat → Nat
  | [] => 0
  | d :: t => d + 10 * decodeLE t

/-- Value of a big-endian decimal character string (inverse of rendering). -/
def decodeDigits (l : List Char) : Nat := decodeLE ((l.map charToDigit).reverse)

/-! ## Python `str.replace` and association-list dictionaries -/

/-- One pass of Python `str.replace(sub, repl)` over a character list, with
fuel bounding the scan length (fuel = input length always suffices). -/
def replaceFuel (sub repl : List Char) : Nat → List Char → List Char
  | _, [] => []
  | 0, l => l
  | fuel + 1, c :: rest =>
    if startsWithL (c :: rest) sub && !sub.isEmpty then
      repl ++ replaceFuel sub repl fuel ((c :: rest).drop sub.length)
    else
      c :: replaceFuel sub repl fuel rest

/-- Python `s.replace(sub, repl)` (left-to-right, non-overlapping). -/
def pyReplace (s sub repl : String) : String :=
  String.mk (replaceFuel sub.data repl.data s.data.length s.data)

/-- Lookup in an association list, modelling Python `dict[key]` / `key in dict`. -/
def lookupKey {K V : Type} [DecidableEq K] (k : K) : List (K × V) → Option V
  | [] => none
  | (k', v) :: rest => if k = k' then some v else lookupKey k rest

/-- Update-or-append in an association list, modelling `dict[key] = v`. -/
def setKey {K V : Type} [DecidableEq K] (k : K) (v : V) : List (K × V) → List (K × V)
  | [] => [(k, v)]
  | (k', v') :: rest => if k = k' then (k, v) :: rest else (k', v') :: setKey k v rest

/-- Python `set.add`: insert if not already present. -/
def setAdd (s : List String) (x : String) : List String :=
  if x ∈ s then s else s ++ [x]

/-- Truthiness of the optional correlation dictionary: Python's
`if id_map:` is true exactly when the argument is neither `None` nor empty. -/
def truthyMap (id_map : Option (List (String × String))) : Bool :=
  match id_map with
  | none => false
  | some m => !m.isEmpty

/-! ## Identity Extractor (identical in dicom_sorting_tool.py,
DICOMDIR_creation_tool.py and dicom_sort_series_filtering.py) -/

/-- The model of `getattr(dataset, attribute)` over the tags the scripts use:
`some` for a present tag, `none` for an absent one (pydicom raises
`AttributeError` for an absent tag and for unknown attribute names). -/
def getAttr (ds : Dataset) : String → Option String
  | "PatientID" => ds.patientID
  | "PatientName" => ds.patientName
  | "PatientBirthDate" => ds.patientBirthDate
  | "StudyDate" => ds.studyDate
  | "SeriesNumber" => ds.seriesNumber
  | "SeriesDescription" => ds.seriesDescription
  | "SOPInstanceUID" => ds.sopInstanceUID
  | "ProtocolName" => ds.protocolName
  | _ => none

/-- `getattr` with its exception made explicit: raises `AttributeError`
when the attribute is absent. -/
def pyGetattr (ds : Dataset) (attrName : String) : Except PyErr String :=
  match getAttr ds attrName with
  | some v => Except.ok v
  | none => Except.error (PyErr.attributeError attrName)

/-- `get_dicom_attribute` (dicom_sorting_tool.py lines 13-17):
`try: return str(getattr(dataset, attribute)) except AttributeError:
return 'UNKNOWN'`. Only `AttributeError` is caught; other exceptions
would propagate (none can occur here). -/
def get_dicom_attribute (ds : Dataset) (attrName : String) : Except PyErr String :=
  match pyGetattr ds attrName with
  | Except.ok v => Except.ok v
  | Except.error (PyErr.attributeError _) => Except.ok "UNKNOWN"
  | Except.error e => Except.error e

/-- Pure view of `get_dicom_attribute`: the value of the tag, or the
`'UNKNOWN'` sentinel. `get_dicom_attribute` always succeeds with this
string (proved below), so downstream code may be written against it. -/
def getAttrD (ds : Dataset) (attrName : String) : String :=
  (getAttr ds attrName).getD "UNKNOWN"

/-! ## Anonymizer (identical in the three sorting scripts) -/

/-- `anonymize_dicom_tags` (dicom_sorting_tool.py lines 32-43). The global
`missing_ids` set is threaded explicitly. Clearing of birth date and name
is unconditional whenever the function runs; the id is remapped through
the dictionary when present, otherwise recorded as missing. -/
def anonymize_dicom_tags (ds : Dataset) (id_map : Option (List (String × String)))
    (missing : List String) : Dataset × List String :=
  let ds1 := if ds.patientBirthDate.isSome then { ds with patientBirthDate := some "" } else ds
  let ds2 := if ds1.patientName.isSome then { ds1 with patientName := some "ANONYMIZED" } else ds1
  match ds2.patientID, truthyMap id_map with
  | some old_id, true =>
    match lookupKey old_id (id_map.getD []) with
    | some new_id => ({ ds2 with patientID := some new_id }, missing)
    | none => (ds2, setAdd missing old_id)
  | _, _ => (ds2, missing)

/-- The anonymization gate in the copy routines
(`if anonymize or id_map: dataset = anonymize_dicom_tags(dataset, id_map)`,
dicom_sorting_tool.py lines 79-80 and dicom_sort_series_filtering.py
lines 64-65). -/
def anonymizeGate (anonymize : Bool) (id_map : Option (List (String × String)))
    (ds : Dataset) (missing : List String) : Dataset × List String :=
  if anonymize || truthyMap id_map then anonymize_dicom_tags ds id_map missing
  else (ds, missing)

/-- The non-DICOM fast-path extension list shared by the copy routines. -/
def non_dicom_extensions : List String := [".png", ".jpeg", ".jpg", ".gif", ".bmp"]

/-- `any(src_file.lower().endswith(ext) for ext in non_dicom_extensions)`. -/
def isNonDicom (src_file : String) : Bool :=
  non_dicom_extensions.any (fun ext => pyEndsWith (lowerStr src_file) ext)

/-! ## Counter Registry (DICOMDIR_creation_tool.py lines 44-67) -/

/-- One lookup-or-insert step on a counter dictionary
(`if key not in d: d[key] = len(d) + 1; return d[key]`). The dictionary
is modelled as an association list in insertion order. -/
def counterStep {K : Type} [DecidableEq K] (d : List (K × Nat)) (k : K) :
    Nat × List (K × Nat) :=
  match lookupKey k d with
  | some v => (v, d)
  | none => (d.length + 1, d ++ [(k, d.length + 1)])

/-- `get_date_id` (DICOMDIR_creation_tool.py lines 51-55), with the global
`date_counter` dictionary threaded explicitly. -/
def get_date_id (d : List ((String × String) × Nat)) (patient_id study_date : String) :
    String × List ((String × String) × Nat) :=
  let s := counterStep d (patient_id, study_date)
  (format_counter s.1 "DAT" 4, s.2)

/-- `get_sequence_id` (DICOMDIR_creation_tool.py lines 57-61), with the
global `sequence_counter` dictionary threaded explicitly. -/
def get_sequence_id (d : List ((String × String × String) × Nat))
    (patient_id study_date series_number : String) :
    String × List ((String × String × String) × Nat) :=
  let s := counterStep d (patient_id, study_date, series_number)
  (format_counter s.1 "SEQ" 4, s.2)

/-- Run a sequence of date-id queries from a given registry state. -/
def runDateFrom (d : List ((String × String) × Nat)) (qs : List (String × String)) :
    List ((String × String) × Nat) :=
  qs.foldl (fun st q => (get_date_id st q.1 q.2).2) d

/-- Run a sequence of sequence-id queries from a given registry state. -/
def runSeqFrom (d : List ((String × String × String) × Nat))
    (qs : List (String × String × String)) : List ((String × String × String) × Nat) :=
  qs.foldl (fun st q => (get_sequence_id st q.1 q.2.1 q.2.2).2) d

/-- Well-formedness of a counter registry: the key first seen `i`-th (0-based)
holds the value `i + 1`, so values are exactly `1, 2, 3, ...` in first-seen
order. -/
def CounterWF {K : Type} (d : List (K × Nat)) : Prop :=
  ∀ i (h : i < d.length), (d.get ⟨i, h⟩).2 = i + 1

/-! ## Collision Resolver, uniquify policy (dicom_sorting_tool.py lines 45-52) -/

/-- `os.path.splitext` restricted to basenames (no slash): split at the
last dot, unless every character before it is itself a dot. -/
def splitext (filename : String) : String × String :=
  match lastIdxOf '.' filename.data with
  | none => (filename, "")
  | some i =>
    if (filename.data.take i).any (fun c => decide (c ≠ '.')) then
      (String.mk (filename.data.take i), String.mk (filename.data.drop i))
    else (filename, "")

/-- The candidate name `f"{base_name}_{counter}{extension}"`. -/
def suffixCand (base ext : String) (counter : Nat) : String :=
  base ++ "_" ++ renderNat counter ++ ext

/-- The `while os.path.exists(...)` loop of `generate_unique_filename`,
with the destination directory's existing names as a list and fuel
bounding the iteration count (fuel `existing.length + 2` always finds a
free name, proved below). -/
def uniquifyLoop (existing : List String) (base ext : String) :
    Nat → Nat → String → String
  | 0, _, current => current
  | fuel + 1, counter, current =>
    if current ∈ existing then
      uniquifyLoop existing base ext fuel (counter + 1) (suffixCand base ext counter)
    else current

/-- `generate_unique_filename` (dicom_sorting_tool.py lines 45-52), over an
explicit list of names already present in the destination directory. -/
def generate_unique_filename (existing : List String) (filename : String) : String :=
  let p := splitext filename
  uniquifyLoop existing p.1 p.2 (existing.length + 2) 1 filename

/-! ## Path sanitization (dicom_sorting_tool.py lines 54-58) -/

/-- Character-for-character replacement, Python `str.replace(a, b)` with
single characters (equal to `pyReplace` there, stated directly as a map). -/
def replaceChar (s : String) (a b : Char) : String :=
  String.mk (s.data.map (fun c => if c = a then b else c))

/-- Single-character deletion, Python `str.replace(a, '')`. -/
def removeChar (s : String) (a : Char) : String :=
  String.mk (s.data.filter (fun c => decide (c ≠ a)))

/-- The character class removed by `re.sub(f'[{re.escape(invalid_chars)}]', '', ...)`. -/
def invalidChars : List Char := ['<', '>', ':', '"', '/', '\\', '|', '?', '*']

/-- `re.sub` deletion of a character class. -/
def reSubRemoveClass (cls : List Char) (s : String) : String :=
  String.mk (s.data.filter (fun c => decide (c ∉ cls)))

/-- `sanitize_series_description` (dicom_sorting_tool.py lines 54-58).
The final call into the external `pathvalidate.sanitize_filepath` library
is taken as an explicit parameter `S` (it is a dependency, not repository
code); theorems state the hypotheses on `S` they need. -/
def sanitize_series_description (S : String → String) (description : String) : String :=
  S (reSubRemoveClass invalidChars
      (replaceChar (removeChar (replaceChar description ' ' '_') '*') '.' '_'))

/-- A string free of every character the sanitizer rewrites. -/
def targetFree (s : String) : Prop :=
  ∀ c ∈ s.data, c ≠ ' ' ∧ c ≠ '*' ∧ c ≠ '.' ∧ c ∉ invalidChars

/-! ## Series Predicate (dicom_sort_series_filtering.py lines 44-51) -/

/-- `should_process_series`: the series number string must end in `'1'`
and the upper-cased description must contain one of the substrings. -/
def should_process_series (series_desc series_num : String) : Bool :=
  if pyEndsWith series_num "1" &&
      (["T1", "T2", "FLAIR"].any (fun sub => hasSubstr (upperStr series_desc) sub)) then
    true
  else false

/-! ## Filesystem model -/

/-- The output filesystem namespace: a map from file path to file content. -/
structure FS where
  files : List (String × String)
  deriving DecidableEq, Repr

/-- Content of a file, if present. -/
def FS.lookupFile (fs : FS) (p : String) : Option String := lookupKey p fs.files

/-- `os.path.exists` on the modelled files. -/
def fsExists (fs : FS) (p : String) : Bool := (fs.lookupFile p).isSome

/-- Write (create or overwrite) a file. -/
def FS.write (fs : FS) (p c : String) : FS := ⟨setKey p c fs.files⟩

/-- Remove a file. -/
def FS.erase (fs : FS) (p : String) : FS := ⟨fs.files.filter (fun e => decide (e.1 ≠ p))⟩

/-- `shutil.copy2`: read the source and write the destination. -/
def shutilCopy2 (fs : FS) (src dst : String) : Except PyErr FS :=
  match fs.lookupFile src with
  | some c => Except.ok (fs.write dst c)
  | none => Except.error (PyErr.fileNotFound src)

/-- `shutil.move`: copy then remove the source. -/
def shutilMove (fs : FS) (src dst : String) : Except PyErr FS :=
  match fs.lookupFile src with
  | some c => Except.ok ((fs.erase src).write dst c)
  | none => Except.error (PyErr.fileNotFound src)

/-! ## dicom_sort_series_filtering.py: copy_or_move_dicom_image (lines 53-95) -/

/-- Per-file outcome of the filtering copy routine, standing in for its
log messages and effects. -/
inductive Action where
  | skippedNonDicom
  | notDicom
  | filteredOut
  | skippedExists
  | copied (dst : String)
  | moved (dst : String)
  deriving DecidableEq, Repr

/-- The template substitution loop (lines 77-79): replace `%Attr%` by the
extracted value, for the four attributes in order. `get_dicom_attribute`
always returns (proved below), so its pure view `getAttrD` is used. -/
def substPattern (ds : Dataset) (pat : String) : String :=
  ["PatientID", "StudyDate", "SeriesNumber", "SeriesDescription"].foldl
    (fun p attr => pyReplace p ("%" ++ attr ++ "%") (getAttrD ds attr)) pat

/-- The destination file path the routine computes (lines 74-84), given the
external `sanitize_filepath` as `S`. -/
def dest_file_path_of (S : String → String) (ds : Dataset) (dest_base_dir pat : String) :
    String :=
  pathJoin (S (pathJoin dest_base_dir (substPattern ds pat)))
    (getAttrD ds "SOPInstanceUID" ++ ".dcm")

/-- `copy_or_move_dicom_image` (dicom_sort_series_filtering.py lines 53-95).
`decoded` is what `pydicom.dcmread(src_file)` produced (`Except.error`
for the caught not-a-DICOM case); `S` is the external `sanitize_filepath`;
the global `missing_ids` set is threaded; directory creation only touches
directories, so it does not change the file map. -/
def copy_or_move_dicom_image (S : String → String) (fs : FS) (missing : List String)
    (src_file dest_base_dir pat : String) (decoded : Except PyErr Dataset)
    (anonymize : Bool) (id_map : Option (List (String × String)))
    (move force : Bool) : Except PyErr (FS × List String × Action) :=
  if isNonDicom src_file then Except.ok (fs, missing, Action.skippedNonDicom)
  else
    match decoded with
    | Except.error _ => Except.ok (fs, missing, Action.notDicom)
    | Except.ok ds0 => do
      let r := anonymizeGate anonymize id_map ds0 missing
      let ds := r.1
      let missing := r.2
      let series_desc ← get_dicom_attribute ds "SeriesDescription"
      let series_num ← get_dicom_attribute ds "SeriesNumber"
      if !should_process_series series_desc series_num then
        Except.ok (fs, missing, Action.filteredOut)
      else
        let dest_file_path := dest_file_path_of S ds dest_base_dir pat
        if !force && fsExists fs dest_file_path then
          Except.ok (fs, missing, Action.skippedExists)
        else if move then do
          let fs' ← shutilMove fs src_file dest_file_path
          Except.ok (fs', missing, Action.moved dest_file_path)
        else do
          let fs' ← shutilCopy2 fs src_file dest_file_path
          Except.ok (fs', missing, Action.copied dest_file_path)

/-! ## dicom_sorting_tool.py: copy_dicom_image / copy_directory (lines 68-107) -/

namespace Sorting

/-- External collaborators of the sorting tool's per-file pipeline:
pydicom decode, `pathvalidate.sanitize_filepath`, directory listing for
the existence checks of `generate_unique_filename`, `os.makedirs`, and
`dataset.save_as`. The last two touch the real filesystem and may raise
`OSError`; the model leaves them abstract. -/
structure Env where
  decode : String → Except PyErr Dataset
  sanitizeFP : String → String
  listDir : String → List String
  makedirs : String → Except PyErr Unit
  save : String → Except PyErr Unit

/-- `decompress_dataset` (lines 60-66): best effort, every exception is
caught, the dataset is passed through. Pixel data is outside the tag
model, so the passthrough is the identity on the modelled tags. -/
def decompress_dataset (ds : Dataset) : Dataset := ds

/-- The sorting tool's template substitution loop (lines 85-89): like the
filtering tool's, but the series description is passed through
`sanitize_series_description` first. -/
def substPatternS (S : String → String) (ds : Dataset) (pat : String) : String :=
  ["PatientID", "StudyDate", "SeriesNumber", "SeriesDescription"].foldl
    (fun p attr =>
      let value := getAttrD ds attr
      let value := if attr = "SeriesDescription" then sanitize_series_description S value
        else value
      pyReplace p ("%" ++ attr ++ "%") value) pat

/-- `copy_dicom_image` (dicom_sorting_tool.py lines 68-96). Only decode
failures are caught (lines 73-77); exceptions from `os.makedirs` or
`dataset.save_as` propagate out of the function. Returns the updated
missing-id set on success. -/
def copy_dicom_image (env : Env) (src_file dest_base_dir pat : String)
    (anonymize : Bool) (id_map : Option (List (String × String))) (decompress : Bool)
    (missing : List String) : Except PyErr (List String) :=
  if isNonDicom src_file then Except.ok missing
  else
    match env.decode src_file with
    | Except.error _ => Except.ok missing
    | Except.ok ds0 => do
      let r := anonymizeGate anonymize id_map ds0 missing
      let ds := if decompress then decompress_dataset r.1 else r.1
      let pat := substPatternS env.sanitizeFP ds pat
      let dest_directory := env.sanitizeFP (pathJoin dest_base_dir pat)
      let _ ← env.makedirs dest_directory
      let unique := generate_unique_filename (env.listDir dest_directory) (basename src_file)
      let _ ← env.save (pathJoin dest_directory unique)
      Except.ok r.2

/-- `process_file` (lines 97-98): the worker body, a plain call. -/
def process_file (env : Env) (file : String) (dest_dir pat : String)
    (anonymize : Bool) (id_map : Option (List (String × String))) (decompress : Bool)
    (missing : List String) : Except PyErr (List String) :=
  copy_dicom_image env file dest_dir pat anonymize id_map decompress missing

/-- `copy_directory` (lines 100-107): submit every file, then call
`future.result()` on each completed future, which re-raises the first
per-file exception in the parent and aborts the run. -/
def copy_directory (env : Env) (all_files : List String) (dest_dir pat : String)
    (anonymize : Bool) (id_map : Option (List (String × String))) (decompress : Bool)
    (missing : List String) : Except PyErr (List String) :=
  all_files.foldlM
    (fun ms f => process_file env f dest_dir pat anonymize id_map decompress ms) missing

end Sorting

/-! ## modify_protocol_name.py: process_file / tally (lines 12-76) -/

namespace Protocol

/-- External collaborators of the protocol-name tool: pydicom decode
(`force=True`) and in-place save of the modified dataset. -/
structure Env where
  decode : String → Except PyErr Dataset
  save : String → Dataset → Except PyErr Unit

/-- The ProtocolName edit (modify_protocol_name.py lines 26-31): the new
value is the basename of the file's parent directory, passed through
`str.strip()` exactly when a previous non-empty ProtocolName existed. -/
def editProtocolName (file_path : String) (ds : Dataset) : Dataset :=
  let parent_folder := basename (dirname file_path)
  let current_protocol := (getAttr ds "ProtocolName").getD ""
  let new_protocol := if current_protocol ≠ "" then pyStrip parent_folder else parent_folder
  { ds with protocolName := some new_protocol }

/-- `process_file` (modify_protocol_name.py lines 12-38): both the read and
the edit-and-save are wrapped in `try/except Exception`, so every failure
becomes `(file_path, False)` and nothing propagates. -/
def process_file (env : Env) (file_path : String) : String × Bool :=
  match env.decode file_path with
  | Except.error _ => (file_path, false)
  | Except.ok ds =>
    match env.save file_path (editProtocolName file_path ds) with
    | Except.ok _ => (file_path, true)
    | Except.error _ => (file_path, false)

/-- The tally loop of `main` (lines 70-74): one success or one failure
counted per result. -/
def tallyCounts (results : List (String × Bool)) : Nat × Nat :=
  results.foldl
    (fun acc r => if r.2 then (acc.1 + 1, acc.2) else (acc.1, acc.2 + 1)) (0, 0)

end Protocol

/-! # Theorems -/

/-! ## Decimal rendering: round trip and injectivity -/

theorem charToDigit_digitToChar : ∀ d, d < 10 → charToDigit (digitToChar d) = d := by
  decide

theorem decodeLE_digitsRevFuel : ∀ fuel n, n ≤ fuel → decodeLE (digitsRevFuel fuel n) = n := by
  intro fuel
  induction fuel with
  | zero => intro n hn; interval_cases n; rfl
  | succ f ih =>
    intro n hn
    match n with
    | 0 => rfl
    | m + 1 =>
      have hdiv : (m + 1) / 10 ≤ f := by
        have := Nat.div_lt_self (Nat.succ_pos m) (by norm_num : 1 < 10)
        omega
      show decodeLE ((m + 1) % 10 :: digitsRevFuel f ((m + 1) / 10)) = m + 1
      show (m + 1) % 10 + 10 * decodeLE (digitsRevFuel f ((m + 1) / 10)) = m + 1
      rw [ih _ hdiv, Nat.mod_add_div]

theorem digitsRevFuel_lt_ten : ∀ fuel n d, d ∈ digitsRevFuel fuel n → d < 10 := by
  intro fuel
  induction fuel with
  | zero => intro n d h; simp [digitsRevFuel] at h
  | succ f ih =>
    intro n d h
    match n with
    | 0 => simp [digitsRevFuel] at h
    | m + 1 =>
      rcases List.mem_cons.1 h with h0 | h1
      · subst h0; exact Nat.mod_lt _ (by norm_num)
      · exact ih _ _ h1

theorem decodeLE_append (xs ys : List Nat) :
    decodeLE (xs ++ ys) = decodeLE xs + 10 ^ xs.length * decodeLE ys := by
  induction xs with
  | nil => simp [decodeLE]
  | cons d t ih =>
    show d + 10 * decodeLE (t ++ ys) = d + 10 * decodeLE t + 10 ^ (t.length + 1) * decodeLE ys
    rw [ih, Nat.pow_succ]
    ring

theorem decodeLE_replicate_zero (k : Nat) : decodeLE (List.replicate k 0) = 0 := by
  induction k with
  | zero => rfl
  | succ n ih => show 0 + 10 * decodeLE (List.replicate n 0) = 0; rw [ih]

theorem decodeDigits_padZeros (w : Nat) (s : String) :
    decodeDigits (padZeros w s).data = decodeDigits s.data := by
  show decodeDigits (List.replicate (w - s.data.length) '0' ++ s.data) = decodeDigits s.data
  unfold decodeDigits
  rw [List.map_append, List.reverse_append, decodeLE_append]
  have hmap : (List.replicate (w - s.data.length) '0').map charToDigit
      = List.replicate (w - s.data.length) 0 := by
    rw [List.map_replicate]; rfl
  rw [hmap, List.reverse_replicate, decodeLE_replicate_zero, Nat.mul_zero, Nat.add_zero]

theorem decodeDigits_renderNat (n : Nat) : decodeDigits (renderNat n).data = n := by
  by_cases h : n = 0
  · subst h; rfl
  · show decodeDigits (if n = 0 then ("0" : String)
      else String.mk (((digitsRevFuel n n).map digitToChar).reverse)).data = n
    rw [if_neg h]
    show decodeLE (((((digitsRevFuel n n).map digitToChar).reverse).map charToDigit).reverse) = n
    rw [← List.map_reverse, List.reverse_reverse, List.map_map]
    have hmap : (digitsRevFuel n n).map (charToDigit ∘ digitToChar) = digitsRevFuel n n := by
      conv_rhs => rw [← List.map_id (digitsRevFuel n n)]
      apply List.map_congr_left
      intro d hd
      exact charToDigit_digitToChar d (digitsRevFuel_lt_ten n n d hd)
    rw [hmap]
    exact decodeLE_digitsRevFuel n n (Nat.le_refl n)

theorem renderNat_inj {a b : Nat} (h : (renderNat a).data = (renderNat b).data) : a = b := by
  have ha := decodeDigits_renderNat a
  have hb := decodeDigits_renderNat b
  rw [h] at ha
  omega

theorem format_counter_inj {a b : Nat} {pre : String} {w : Nat}
    (h : format_counter a pre w = format_counter b pre w) : a = b := by
  have hd : (format_counter a pre w).data = (format_counter b pre w).data := by rw [h]
  unfold format_counter at hd
  rw [String.data_append, String.data_append] at hd
  have hp := List.append_cancel_left hd
  have ha := decodeDigits_padZeros w (renderNat a)
  have hb := decodeDigits_padZeros w (renderNat b)
  rw [hp] at ha
  rw [decodeDigits_renderNat] at ha hb
  omega

/-! ## Counter Registry: dictionary lemmas -/

theorem lookupKey_cons {K V : Type} [DecidableEq K] (k k' : K) (v' : V) (t : List (K × V)) :
    lookupKey k ((k', v') :: t) = if k = k' then some v' else lookupKey k t := rfl

theorem lookupKey_mem {K V : Type} [DecidableEq K] {k : K} {v : V} :
    ∀ {d : List (K × V)}, lookupKey k d = some v → (k, v) ∈ d := by
  intro d
  induction d with
  | nil => intro h; simp [lookupKey] at h
  | cons e t ih =>
    obtain ⟨k', v'⟩ := e
    intro h
    rw [lookupKey_cons] at h
    by_cases hk : k = k'
    · rw [if_pos hk] at h
      rw [Option.some_inj] at h
      subst hk
      subst h
      exact List.mem_cons_self _ _
    · rw [if_neg hk] at h
      exact List.mem_cons_of_mem _ (ih h)

theorem lookupKey_append_some {K V : Type} [DecidableEq K] {k : K} {v : V} :
    ∀ {d : List (K × V)} (e : List (K × V)),
      lookupKey k d = some v → lookupKey k (d ++ e) = some v := by
  intro d
  induction d with
  | nil => intro e h; simp [lookupKey] at h
  | cons a t ih =>
    obtain ⟨k', v'⟩ := a
    intro e h
    rw [lookupKey_cons] at h
    rw [List.cons_append, lookupKey_cons]
    by_cases hk : k = k'
    · rw [if_pos hk] at h ⊢; exact h
    · rw [if_neg hk] at h ⊢; exact ih e h

theorem lookupKey_append_none {K V : Type} [DecidableEq K] {k : K} :
    ∀ {d : List (K × V)} (e : List (K × V)),
      lookupKey k d = none → lookupKey k (d ++ e) = lookupKey k e := by
  intro d
  induction d with
  | nil => intro e _; rfl
  | cons a t ih =>
    obtain ⟨k', v'⟩ := a
    intro e h
    rw [lookupKey_cons] at h
    rw [List.cons_append, lookupKey_cons]
    by_cases hk : k = k'
    · rw [if_pos hk] at h; exact absurd h (by simp)
    · rw [if_neg hk] at h ⊢; exact ih e h

theorem counterStep_eq_some {K : Type} [DecidableEq K] {d : List (K × Nat)} {k : K}
    {v : Nat} (h : lookupKey k d = some v) : counterStep d k = (v, d) := by
  unfold counterStep
  rw [h]

theorem counterStep_eq_none {K : Type} [DecidableEq K] {d : List (K × Nat)} {k : K}
    (h : lookupKey k d = none) :
    counterStep d k = (d.length + 1, d ++ [(k, d.length + 1)]) := by
  unfold counterStep
  rw [h]

theorem counterStep_preserves {K : Type} [DecidableEq K] {d : List (K × Nat)} {k : K}
    {v : Nat} (h : lookupKey k d = some v) (k' : K) :
    lookupKey k ((counterStep d k').2) = some v := by
  cases hl : lookupKey k' d with
  | some w => rw [counterStep_eq_some hl]; exact h
  | none => rw [counterStep_eq_none hl]; exact lookupKey_append_some _ h

theorem counterStep_self {K : Type} [DecidableEq K] (d : List (K × Nat)) (k : K) :
    lookupKey k ((counterStep d k).2) = some ((counterStep d k).1) := by
  cases hl : lookupKey k d with
  | some w => rw [counterStep_eq_some hl]; exact hl
  | none =>
    rw [counterStep_eq_none hl]
    show lookupKey k (d ++ [(k, d.length + 1)]) = some (d.length + 1)
    rw [lookupKey_append_none _ hl]
    simp [lookupKey_cons]

theorem counterStep_wf {K : Type} [DecidableEq K] {d : List (K × Nat)}
    (hwf : CounterWF d) (k : K) : CounterWF ((counterStep d k).2) := by
  cases hl : lookupKey k d with
  | some w => rw [counterStep_eq_some hl]; exact hwf
  | none =>
    rw [counterStep_eq_none hl]
    intro i hi
    rw [List.get_eq_getElem]
    by_cases hlt : i < d.length
    · rw [List.getElem_append_left hlt]
      have := hwf i hlt
      rw [List.get_eq_getElem] at this
      exact this
    · have hieq : i = d.length := by
        simp at hi
        omega
      subst hieq
      rw [List.getElem_concat_length]
      rfl

theorem counterWF_nil {K : Type} : CounterWF ([] : List (K × Nat)) := by
  intro i h
  simp at h

theorem lookupKey_bound {K : Type} [DecidableEq K] {d : List (K × Nat)} {k : K} {v : Nat}
    (hwf : CounterWF d) (h : lookupKey k d = some v) : 1 ≤ v ∧ v ≤ d.length := by
  have hm := lookupKey_mem h
  rcases List.mem_iff_get.1 hm with ⟨⟨i, hi⟩, hget⟩
  have := hwf i hi
  rw [hget] at this
  simp at this
  omega

theorem lookupKey_distinct {K : Type} [DecidableEq K] {d : List (K × Nat)}
    {k1 k2 : K} {v1 v2 : Nat} (hwf : CounterWF d) (h1 : lookupKey k1 d = some v1)
    (h2 : lookupKey k2 d = some v2) (hk : k1 ≠ k2) : v1 ≠ v2 := by
  rcases List.mem_iff_get.1 (lookupKey_mem h1) with ⟨⟨i1, hi1⟩, hg1⟩
  rcases List.mem_iff_get.1 (lookupKey_mem h2) with ⟨⟨i2, hi2⟩, hg2⟩
  have hv1 := hwf i1 hi1
  have hv2 := hwf i2 hi2
  rw [hg1] at hv1
  rw [hg2] at hv2
  simp at hv1 hv2
  intro hv
  have hii : i1 = i2 := by omega
  subst hii
  rw [hg1] at hg2
  have : k1 = k2 := by
    have := congrArg Prod.fst hg2
    simpa using this
  exact hk this

/-! ## Counter Registry: run-level lemmas -/

theorem runDateFrom_preserves :
    ∀ (qs : List (String × String)) (d : List ((String × String) × Nat))
      (k : String × String) (v : Nat),
      lookupKey k d = some v → lookupKey k (runDateFrom d qs) = some v := by
  intro qs
  induction qs with
  | nil => intro d k v h; exact h
  | cons q t ih =>
    intro d k v h
    show lookupKey k (runDateFrom ((counterStep d (q.1, q.2)).2) t) = some v
    exact ih _ _ _ (counterStep_preserves h _)

theorem runDateFrom_wf :
    ∀ (qs : List (String × String)) (d : List ((String × String) × Nat)),
      CounterWF d → CounterWF (runDateFrom d qs) := by
  intro qs
  induction qs with
  | nil => intro d h; exact h
  | cons q t ih =>
    intro d h
    show CounterWF (runDateFrom ((counterStep d (q.1, q.2)).2) t)
    exact ih _ (counterStep_wf h _)

theorem runSeqFrom_preserves :
    ∀ (qs : List (String × String × String)) (d : List ((String × String × String) × Nat))
      (k : String × String × String) (v : Nat),
      lookupKey k d = some v → lookupKey k (runSeqFrom d qs) = some v := by
  intro qs
  induction qs with
  | nil => intro d k v h; exact h
  | cons q t ih =>
    intro d k v h
    show lookupKey k (runSeqFrom ((counterStep d (q.1, q.2.1, q.2.2)).2) t) = some v
    exact ih _ _ _ (counterStep_preserves h _)

theorem runSeqFrom_wf :
    ∀ (qs : List (String × String × String)) (d : List ((String × String × String) × Nat)),
      CounterWF d → CounterWF (runSeqFrom d qs) := by
  intro qs
  induction qs with
  | nil => intro d h; exact h
  | cons q t ih =>
    intro d h
    show CounterWF (runSeqFrom ((counterStep d (q.1, q.2.1, q.2.2)).2) t)
    exact ih _ (counterStep_wf h _)

theorem counterStep_token_ne {K : Type} [DecidableEq K] {d1 : List (K × Nat)}
    {k1 k2 : K} {v1 : Nat} (hwf : CounterWF d1) (h1 : lookupKey k1 d1 = some v1)
    (hk : k1 ≠ k2) (pre : String) (w : Nat) :
    format_counter (counterStep d1 k2).1 pre w ≠ format_counter v1 pre w := by
  intro heq
  have hv := format_counter_inj heq
  cases hl : lookupKey k2 d1 with
  | some v2 =>
    rw [counterStep_eq_some hl] at hv
    exact lookupKey_distinct hwf hl h1 (fun h => hk h.symm) hv
  | none =>
    rw [counterStep_eq_none hl] at hv
    have := (lookupKey_bound hwf h1).2
    omega

/-- C1: the Counter Registry is deterministic and injective within a run.
For every sequence of queries (`qs`, then the key in question, then
arbitrary further queries `more`): re-querying `get_date_id` with the same
(patientId, studyDate) key returns the same token; querying a distinct key
returns a distinct token; and the registry values are assigned 1-based,
monotonically, in first-seen order (`CounterWF`). The same three
properties hold of `get_sequence_id` over
(patientId, studyDate, seriesNumber) keys. -/
theorem c1_counter_registry_deterministic_injective :
    (∀ (qs : List (String × String)) (k : String × String) (more : List (String × String)),
      (get_date_id (runDateFrom (get_date_id (runDateFrom [] qs) k.1 k.2).2 more) k.1 k.2).1
        = (get_date_id (runDateFrom [] qs) k.1 k.2).1) ∧
    (∀ (qs : List (String × String)) (k1 k2 : String × String)
        (more : List (String × String)), k1 ≠ k2 →
      (get_date_id (runDateFrom (get_date_id (runDateFrom [] qs) k1.1 k1.2).2 more) k2.1 k2.2).1
        ≠ (get_date_id (runDateFrom [] qs) k1.1 k1.2).1) ∧
    (∀ qs : List (String × String), CounterWF (runDateFrom [] qs)) ∧
    (∀ (qs : List (String × String × String)) (k : String × String × String)
        (more : List (String × String × String)),
      (get_sequence_id (runSeqFrom (get_sequence_id (runSeqFrom [] qs) k.1 k.2.1 k.2.2).2 more)
          k.1 k.2.1 k.2.2).1
        = (get_sequence_id (runSeqFrom [] qs) k.1 k.2.1 k.2.2).1) ∧
    (∀ (qs : List (String × String × String)) (k1 k2 : String × String × String)
        (more : List (String × String × String)), k1 ≠ k2 →
      (get_sequence_id (runSeqFrom (get_sequence_id (runSeqFrom [] qs) k1.1 k1.2.1 k1.2.2).2 more)
          k2.1 k2.2.1 k2.2.2).1
        ≠ (get_sequence_id (runSeqFrom [] qs) k1.1 k1.2.1 k1.2.2).1) ∧
    (∀ qs : List (String × String × String), CounterWF (runSeqFrom [] qs)) := by
  refine ⟨?_, ?_, ?_, ?_, ?_, ?_⟩
  · intro qs k more
    have hself := counterStep_self (runDateFrom [] qs) k
    have hkeep := runDateFrom_preserves more _ k _ hself
    show format_counter (counterStep (runDateFrom ((counterStep (runDateFrom [] qs) k).2) more) k).1 "DAT" 4
      = format_counter (counterStep (runDateFrom [] qs) k).1 "DAT" 4
    rw [counterStep_eq_some hkeep]
  · intro qs k1 k2 more hk
    have hwf0 := runDateFrom_wf qs [] counterWF_nil
    have hwf1 := counterStep_wf hwf0 k1
    have hwf2 := runDateFrom_wf more _ hwf1
    have hself := counterStep_self (runDateFrom [] qs) k1
    have hkeep := runDateFrom_preserves more _ k1 _ hself
    exact counterStep_token_ne hwf2 hkeep hk "DAT" 4
  · intro qs
    exact runDateFrom_wf qs [] counterWF_nil
  · intro qs k more
    have hself := counterStep_self (runSeqFrom [] qs) k
    have hkeep := runSeqFrom_preserves more _ k _ hself
    show format_counter (counterStep (runSeqFrom ((counterStep (runSeqFrom [] qs) k).2) more) k).1 "SEQ" 4
      = format_counter (counterStep (runSeqFrom [] qs) k).1 "SEQ" 4
    rw [counterStep_eq_some hkeep]
  · intro qs k1 k2 more hk
    have hwf0 := runSeqFrom_wf qs [] counterWF_nil
    have hwf1 := counterStep_wf hwf0 k1
    have hwf2 := runSeqFrom_wf more _ hwf1
    have hself := counterStep_self (runSeqFrom [] qs) k1
    have hkeep := runSeqFrom_preserves more _ k1 _ hself
    exact counterStep_token_ne hwf2 hkeep hk "SEQ" 4
  · intro qs
    exact runSeqFrom_wf qs [] counterWF_nil

/-- Witness for C1: applied at a concrete run, distinct keys receive
distinct tokens for both registries. -/
theorem c1_counter_registry_witness :
    (get_date_id (runDateFrom (get_date_id (runDateFrom [] []) "p" "d1").2 []) "q" "d2").1
      ≠ (get_date_id (runDateFrom [] []) "p" "d1").1 ∧
    (get_sequence_id (runSeqFrom (get_sequence_id (runSeqFrom [] []) "p" "d1" "1").2 [])
        "p" "d1" "2").1
      ≠ (get_sequence_id (runSeqFrom [] []) "p" "d1" "1").1 := by
  refine ⟨?_, ?_⟩
  · exact c1_counter_registry_deterministic_injective.2.1 [] ("p", "d1") ("q", "d2") []
      (by decide)
  · exact c1_counter_registry_deterministic_injective.2.2.2.2.1 [] ("p", "d1", "1")
      ("p", "d1", "2") [] (by decide)

/-! ## Collision Resolver, uniquify policy -/

theorem suffixCand_inj {base ext : String} {a b : Nat}
    (h : suffixCand base ext a = suffixCand base ext b) : a = b := by
  have hd := congrArg String.data h
  unfold suffixCand at hd
  rw [String.data_append, String.data_append, String.data_append,
    String.data_append, String.data_append, String.data_append] at hd
  have h1 := List.append_cancel_right hd
  have h2 := List.append_cancel_left h1
  exact renderNat_inj h2

theorem suffixCand_free (existing : List String) (base ext : String) (start : Nat) :
    ∃ i, i < existing.length + 2 ∧ suffixCand base ext (start + i) ∉ existing := by
  by_contra hcon
  push_neg at hcon
  have hnodup : ((List.range (existing.length + 2)).map
      (fun i => suffixCand base ext (start + i))).Nodup := by
    refine (List.nodup_range _).map_on ?_
    intro x _ y _ hxy
    have := suffixCand_inj hxy
    omega
  have hsub : ((List.range (existing.length + 2)).map
      (fun i => suffixCand base ext (start + i))) ⊆ existing := by
    intro a ha
    rcases List.mem_map.1 ha with ⟨i, hi, rfl⟩
    exact hcon i (List.mem_range.1 hi)
  have hlen := (List.subperm_of_subset hnodup hsub).length_le
  rw [List.length_map, List.length_range] at hlen
  omega

theorem uniquifyLoop_not_mem (existing : List String) (base ext : String) :
    ∀ (fuel counter : Nat) (current : String),
      (current ∉ existing ∨ ∃ i, i < fuel ∧ suffixCand base ext (counter + i) ∉ existing) →
      uniquifyLoop existing base ext fuel counter current ∉ existing := by
  intro fuel
  induction fuel with
  | zero =>
    intro counter current h
    rcases h with h | ⟨i, hi, _⟩
    · exact h
    · omega
  | succ f ih =>
    intro counter current h
    show (if current ∈ existing then
        uniquifyLoop existing base ext f (counter + 1) (suffixCand base ext counter)
      else current) ∉ existing
    by_cases hc : current ∈ existing
    · rw [if_pos hc]
      apply ih
      rcases h with h | ⟨i, hi, hfree⟩
      · exact absurd hc h
      · match i with
        | 0 =>
          left
          simpa using hfree
        | j + 1 =>
          right
          refine ⟨j, by omega, ?_⟩
          have : counter + 1 + j = counter + (j + 1) := by omega
          rw [this]
          exact hfree
    · rw [if_neg hc]
      exact hc

/-- C4: under the uniquify policy, `generate_unique_filename` never returns
a name already present in the destination directory — no existing file is
overwritten — and for an existing `IM000001` the proposed name `IM000001`
resolves to `IM000001_1` (numeric suffixes `_1`, `_2`, ... before the
extension). -/
theorem c4_uniquify_never_overwrites :
    (∀ (existing : List String) (filename : String),
      generate_unique_filename existing filename ∉ existing) ∧
    generate_unique_filename ["IM000001"] "IM000001" = "IM000001_1" := by
  constructor
  · intro existing filename
    show uniquifyLoop existing (splitext filename).1 (splitext filename).2
      (existing.length + 2) 1 filename ∉ existing
    apply uniquifyLoop_not_mem
    exact Or.inr (suffixCand_free existing _ _ 1)
  · decide

/-- Witness for C4: the general statement applied at the concrete
single-file directory. -/
theorem c4_uniquify_witness :
    generate_unique_filename ["IM000001"] "IM000001" ∉ ["IM000001"] :=
  c4_uniquify_never_overwrites.1 ["IM000001"] "IM000001"

/-! ## Path sanitization: idempotence -/

theorem map_id_of_mem {l : List Char} {f : Char → Char} (h : ∀ a ∈ l, f a = a) :
    l.map f = l := by
  conv_rhs => rw [← List.map_id l]
  exact List.map_congr_left h

theorem sanitize_core_targetFree (s : String) :
    targetFree (reSubRemoveClass invalidChars
      (replaceChar (removeChar (replaceChar s ' ' '_') '*') '.' '_')) := by
  intro c hc
  rcases List.mem_filter.1 hc with ⟨hmem, hdec⟩
  have hninv : c ∉ invalidChars := of_decide_eq_true hdec
  rcases List.mem_map.1 hmem with ⟨a, hamem, rfl⟩
  rcases List.mem_filter.1 hamem with ⟨hbmem, _⟩
  rcases List.mem_map.1 hbmem with ⟨b, _, rfl⟩
  refine ⟨?_, ?_, ?_, hninv⟩
  · by_cases hb : b = ' '
    · rw [if_pos hb]
      by_cases hd : (if b = ' ' then '_' else b) = '.' <;> simp [hd]
    · rw [if_neg hb]
      by_cases hd : b = '.'
      · rw [if_pos hd]; decide
      · rw [if_neg hd]; exact hb
  · intro hstar
    apply hninv
    rw [hstar]
    decide
  · by_cases hd : (if b = ' ' then '_' else b) = '.'
    · rw [if_pos hd]; decide
    · rw [if_neg hd]; exact hd

theorem sanitize_core_fixed {s : String} (h : targetFree s) :
    reSubRemoveClass invalidChars
      (replaceChar (removeChar (replaceChar s ' ' '_') '*') '.' '_') = s := by
  have h1 : replaceChar s ' ' '_' = s := by
    show String.mk (s.data.map (fun c => if c = ' ' then '_' else c)) = s
    rw [map_id_of_mem (fun a ha => if_neg (h a ha).1)]
  rw [h1]
  have h2 : removeChar s '*' = s := by
    show String.mk (s.data.filter (fun c => decide (c ≠ '*'))) = s
    rw [List.filter_eq_self.2 (fun a ha => decide_eq_true (h a ha).2.1)]
  rw [h2]
  have h3 : replaceChar s '.' '_' = s := by
    show String.mk (s.data.map (fun c => if c = '.' then '_' else c)) = s
    rw [map_id_of_mem (fun a ha => if_neg (h a ha).2.2.1)]
  rw [h3]
  show String.mk (s.data.filter (fun c => decide (c ∉ invalidChars))) = s
  rw [List.filter_eq_self.2 (fun a ha => decide_eq_true (h a ha).2.2.2)]

/-- C8: `sanitize_series_description` is idempotent. The final call into
the external `pathvalidate.sanitize_filepath` library is a parameter `S`;
the theorem holds for every `S` that is itself idempotent and that
preserves freedom from the characters the repository code rewrites
(`pathvalidate` deletes invalid characters and appends safe ones, so it
satisfies both). -/
theorem c8_sanitize_idempotent (S : String → String)
    (hid : ∀ x, S (S x) = S x)
    (hpres : ∀ x, targetFree x → targetFree (S x)) :
    ∀ s, sanitize_series_description S (sanitize_series_description S s)
      = sanitize_series_description S s := by
  intro s
  show S (reSubRemoveClass invalidChars
      (replaceChar (removeChar (replaceChar (sanitize_series_description S s) ' ' '_') '*') '.' '_'))
    = sanitize_series_description S s
  have htf : targetFree (sanitize_series_description S s) :=
    hpres _ (sanitize_core_targetFree s)
  rw [sanitize_core_fixed htf]
  exact hid _

/-- Witness for C8: applied with the identity as the external sanitizer at
a concrete description containing every rewritten character class. -/
theorem c8_sanitize_witness :
    sanitize_series_description id (sanitize_series_description id "a b*c.d<e>/f")
      = sanitize_series_description id "a b*c.d<e>/f" :=
  c8_sanitize_idempotent id (fun _ => rfl) (fun _ hx => hx) "a b*c.d<e>/f"

/-! ## Identity Extractor: totality -/

theorem get_dicom_attribute_ok (ds : Dataset) (attrName : String) :
    get_dicom_attribute ds attrName = Except.ok (getAttrD ds attrName) := by
  unfold get_dicom_attribute pyGetattr getAttrD
  cases h : getAttr ds attrName <;> rfl

/-- C6: the Identity Extractor is total. For every dataset and attribute
name, `get_dicom_attribute` returns (`Except.ok`) a string and never
raises: the sentinel `'UNKNOWN'` when the attribute access fails (the tag
is absent), and the string form of the field's value otherwise. -/
theorem c6_identity_extractor_total :
    ∀ (ds : Dataset) (attrName : String),
      ∃ s, get_dicom_attribute ds attrName = Except.ok s ∧
        (getAttr ds attrName = none → s = "UNKNOWN") ∧
        (∀ v, getAttr ds attrName = some v → s = v) := by
  intro ds attrName
  refine ⟨getAttrD ds attrName, get_dicom_attribute_ok ds attrName, ?_, ?_⟩
  · intro h
    unfold getAttrD
    rw [h]
    rfl
  · intro v h
    unfold getAttrD
    rw [h]
    rfl

/-- Witness for C6: the totality statement applied at a concrete dataset,
once for a present attribute and once for an absent one. -/
theorem c6_identity_extractor_witness :
    (∃ s, get_dicom_attribute { patientID := some "A" } "PatientID" = Except.ok s ∧
      (getAttr { patientID := some "A" } "PatientID" = none → s = "UNKNOWN") ∧
      (∀ v, getAttr { patientID := some "A" } "PatientID" = some v → s = v)) ∧
    (∃ s, get_dicom_attribute { patientID := some "A" } "StudyDate" = Except.ok s ∧
      (getAttr { patientID := some "A" } "StudyDate" = none → s = "UNKNOWN") ∧
      (∀ v, getAttr { patientID := some "A" } "StudyDate" = some v → s = v)) :=
  ⟨c6_identity_extractor_total _ _, c6_identity_extractor_total _ _⟩

/-! ## Series Predicate -/

/-- C7: the series predicate accepts exactly when the series number string
ends in the configured digit `'1'` and the upper-cased description
contains one of the fixed substrings `T1`, `T2`, `FLAIR`; in particular
`("T1_MPRAGE", "3")` is excluded and `("T2_FLAIR", "11")` is included. -/
theorem c7_series_predicate :
    (∀ series_desc series_num : String,
      should_process_series series_desc series_num = true ↔
        (pyEndsWith series_num "1" = true ∧
          ∃ sub ∈ (["T1", "T2", "FLAIR"] : List String),
            hasSubstr (upperStr series_desc) sub = true)) ∧
    should_process_series "T1_MPRAGE" "3" = false ∧
    should_process_series "T2_FLAIR" "11" = true := by
  refine ⟨?_, by decide, by decide⟩
  intro d n
  have hb : should_process_series d n
      = (pyEndsWith n "1" && (["T1", "T2", "FLAIR"].any (fun sub => hasSubstr (upperStr d) sub))) := by
    unfold should_process_series
    cases h : (pyEndsWith n "1" && (["T1", "T2", "FLAIR"].any (fun sub => hasSubstr (upperStr d) sub))) <;>
      simp [h]
  rw [hb, Bool.and_eq_true, List.any_eq_true]

/-- Witness for C7: the equivalence applied at the concrete included
example. -/
theorem c7_series_predicate_witness :
    should_process_series "T2_FLAIR" "11" = true ↔
      (pyEndsWith "11" "1" = true ∧
        ∃ sub ∈ (["T1", "T2", "FLAIR"] : List String),
          hasSubstr (upperStr "T2_FLAIR") sub = true) :=
  c7_series_predicate.1 "T2_FLAIR" "11"

/-! ## Anonymizer lemmas -/

theorem mem_setAdd_self (s : List String) (x : String) : x ∈ setAdd s x := by
  unfold setAdd
  by_cases h : x ∈ s
  · rw [if_pos h]; exact h
  · rw [if_neg h]; exact List.mem_append_right _ (List.mem_singleton.2 rfl)

theorem anonymize_patientName (ds : Dataset) (id_map : Option (List (String × String)))
    (missing : List String) :
    (anonymize_dicom_tags ds id_map missing).1.patientName
      = if ds.patientName.isSome then some "ANONYMIZED" else ds.patientName := by
  obtain ⟨pid, pn, pbd, sd, sn, sdesc, sop, proto⟩ := ds
  cases pbd <;> cases pn <;> cases pid <;> cases ht : truthyMap id_map <;>
    simp only [anonymize_dicom_tags, ht] <;>
    first
      | rfl
      | (rename_i p; cases hlk : lookupKey p (id_map.getD []) <;> simp [hlk])

theorem anonymize_patientBirthDate (ds : Dataset) (id_map : Option (List (String × String)))
    (missing : List String) :
    (anonymize_dicom_tags ds id_map missing).1.patientBirthDate
      = if ds.patientBirthDate.isSome then some "" else ds.patientBirthDate := by
  obtain ⟨pid, pn, pbd, sd, sn, sdesc, sop, proto⟩ := ds
  cases pbd <;> cases pn <;> cases pid <;> cases ht : truthyMap id_map <;>
    simp only [anonymize_dicom_tags, ht] <;>
    first
      | rfl
      | (rename_i p; cases hlk : lookupKey p (id_map.getD []) <;> simp [hlk])

/-- C2: with a present PatientID and a non-empty correlation map,
`anonymize_dicom_tags` replaces the PatientID with the mapped id exactly
when the old id is a key of the map; otherwise the PatientID is left
unchanged and the old id is recorded in the missing-id set. The function
is total — in neither case does the operation fail. -/
theorem c2_patient_id_remap (ds : Dataset) (id_map : Option (List (String × String)))
    (missing : List String) (oldId : String) (m : List (String × String))
    (hid : ds.patientID = some oldId) (hm : id_map = some m) (hne : m ≠ []) :
    (∀ newId, lookupKey oldId m = some newId →
      (anonymize_dicom_tags ds id_map missing).1.patientID = some newId) ∧
    (lookupKey oldId m = none →
      (anonymize_dicom_tags ds id_map missing).1.patientID = some oldId ∧
        oldId ∈ (anonymize_dicom_tags ds id_map missing).2) := by
  subst hm
  have ht : truthyMap (some m) = true := by
    unfold truthyMap
    cases m with
    | nil => exact absurd rfl hne
    | cons a t => rfl
  obtain ⟨pid, pn, pbd, sd, sn, sdesc, sop, proto⟩ := ds
  simp only [Dataset.patientID] at hid
  subst hid
  cases pbd <;> cases pn <;>
    simp only [anonymize_dicom_tags, ht] <;>
    constructor <;>
      first
        | (intro newId hlk; simp [hlk])
        | (intro hlk; simp [hlk, mem_setAdd_self])

/-- Witness for C2: applied at concrete datasets, one whose id is a key of
the map (remapped) and one whose id is not (unchanged and recorded). -/
theorem c2_patient_id_remap_witness :
    (anonymize_dicom_tags { patientID := some "A" } (some [("A", "B")]) []).1.patientID
      = some "B" ∧
    (anonymize_dicom_tags { patientID := some "X" } (some [("A", "B")]) []).1.patientID
      = some "X" ∧
    "X" ∈ (anonymize_dicom_tags { patientID := some "X" } (some [("A", "B")]) []).2 := by
  have h1 := c2_patient_id_remap { patientID := some "A" } (some [("A", "B")]) [] "A"
    [("A", "B")] rfl rfl (by decide)
  have h2 := c2_patient_id_remap { patientID := some "X" } (some [("A", "B")]) [] "X"
    [("A", "B")] rfl rfl (by decide)
  refine ⟨h1.1 "B" (by decide), ?_, ?_⟩
  · exact (h2.2 (by decide)).1
  · exact (h2.2 (by decide)).2

/-- Counterexample for C3: with the anonymize option NOT requested but a
correlation map supplied, the copy routines' gate
(`if anonymize or id_map:`) still runs `anonymize_dicom_tags`, which
clears PatientName and PatientBirthDate unconditionally. The claim
predicts both fields stay unchanged here; they do not. -/
theorem c3_clearing_counterexample :
    (anonymizeGate false (some [("A", "B")])
        { patientID := some "A", patientName := some "JOHN^DOE",
          patientBirthDate := some "19900101" } []).1.patientName
      = some "ANONYMIZED" ∧
    (anonymizeGate false (some [("A", "B")])
        { patientID := some "A", patientName := some "JOHN^DOE",
          patientBirthDate := some "19900101" } []).1.patientBirthDate
      = some "" ∧
    some "ANONYMIZED" ≠ some "JOHN^DOE" ∧ some "" ≠ some "19900101" := by
  refine ⟨rfl, rfl, by decide, by decide⟩

/-- C3 as amended: name and birth-date clearing is NOT gated on the
anonymize option alone — the fields are cleared (to `'ANONYMIZED'` and
the empty string) if and only if they are present and the
anonymize-or-remap gate fires, i.e. the anonymize option was requested OR
a non-empty correlation map was supplied. In particular supplying only a
correlation map triggers remapping AND the clearing of name/birth-date. -/
theorem c3_amended_clearing_gate :
    ∀ (anonymize : Bool) (id_map : Option (List (String × String))) (ds : Dataset)
      (missing : List String),
      (anonymizeGate anonymize id_map ds missing).1.patientName
        = (if (anonymize || truthyMap id_map) && ds.patientName.isSome then some "ANONYMIZED"
          else ds.patientName) ∧
      (anonymizeGate anonymize id_map ds missing).1.patientBirthDate
        = (if (anonymize || truthyMap id_map) && ds.patientBirthDate.isSome then some ""
          else ds.patientBirthDate) := by
  intro a id_map ds ms
  unfold anonymizeGate
  cases hg : (a || truthyMap id_map) with
  | false => simp
  | true =>
    simp only [if_true, Bool.true_and]
    constructor
    · rw [anonymize_patientName]
    · rw [anonymize_patientBirthDate]

/-! ## modify_protocol_name.py: the ProtocolName edit -/

/-- Counterexample for C10: `process_file` does not always set ProtocolName
to exactly the parent directory's basename. When a prior non-empty
ProtocolName exists the new value is `str.strip()` of the basename, so for
the parent directory `" b "` (surrounding whitespace) the stored value is
`"b"`, not the basename `" b "`; and the result differs depending on
whether a prior ProtocolName was present. -/
theorem c10_protocol_name_counterexample :
    (Protocol.editProtocolName "/a/ b /f.dcm" { protocolName := some "OLD" }).protocolName
      = some "b" ∧
    basename (dirname "/a/ b /f.dcm") = " b " ∧
    (some "b" : Option String) ≠ some " b " ∧
    (Protocol.editProtocolName "/a/ b /f.dcm" { protocolName := none }).protocolName
      = some " b " :=
  ⟨rfl, rfl, by decide, rfl⟩

/-- C10 as amended: the edit replaces (never appends to) the stored
ProtocolName with the basename of the file's parent directory; the prior
value is discarded, influencing the result only through its emptiness,
which selects whether `str.strip()` is applied to the basename. Whenever
that basename carries no surrounding whitespace the stored value is
exactly the basename, regardless of the prior ProtocolName. -/
theorem c10_protocol_name_amended :
    ∀ (file_path : String) (ds : Dataset),
      ((Protocol.editProtocolName file_path ds).protocolName
        = some (if (getAttr ds "ProtocolName").getD "" ≠ "" then
            pyStrip (basename (dirname file_path))
          else basename (dirname file_path))) ∧
      (pyStrip (basename (dirname file_path)) = basename (dirname file_path) →
        (Protocol.editProtocolName file_path ds).protocolName
          = some (basename (dirname file_path))) := by
  intro file_path ds
  constructor
  · rfl
  · intro h
    show some (if (getAttr ds "ProtocolName").getD "" ≠ "" then
        pyStrip (basename (dirname file_path))
      else basename (dirname file_path)) = some (basename (dirname file_path))
    split
    · rw [h]
    · rfl

/-- Witness for C10 (amended): at a whitespace-free parent directory the
stored ProtocolName is exactly the basename, whatever was stored before. -/
theorem c10_protocol_name_witness :
    (Protocol.editProtocolName "/a/b/f.dcm" { protocolName := some "OLD" }).protocolName
      = some (basename (dirname "/a/b/f.dcm")) :=
  (c10_protocol_name_amended "/a/b/f.dcm" { protocolName := some "OLD" }).2 rfl

/-! ## Dispatcher: per-file exception handling and the tally -/

/-- Counterexample for C9: in dicom_sorting_tool.py an exception inside a
single file's pipeline is NOT converted into a failure outcome — the
`future.result()` call in `copy_directory` re-raises it and the run
aborts. Here `dataset.save_as` raises `OSError` and `copy_directory` on a
one-file input propagates the exception instead of tallying a failure. -/
theorem c9_run_abort_counterexample :
    Sorting.copy_directory
      { decode := fun _ => Except.ok
          (⟨some "P", none, none, some "20200101", some "3", some "T1 MPRAGE", none, none⟩ :
            Dataset),
        sanitizeFP := id,
        listDir := fun _ => [],
        makedirs := fun _ => Except.ok (),
        save := fun _ => Except.error (PyErr.osError "No space left on device") }
      ["a.dcm"] "out" "%PatientID%/%StudyDate%/%SeriesDescription%" false none false []
      = Except.error (PyErr.osError "No space left on device") := rfl

theorem tallyFold_sum :
    ∀ (l : List (String × Bool)) (a b : Nat),
      ((l.foldl (fun acc r => if r.2 then (acc.1 + 1, acc.2) else (acc.1, acc.2 + 1)) (a, b)).1
        + (l.foldl (fun acc r => if r.2 then (acc.1 + 1, acc.2) else (acc.1, acc.2 + 1)) (a, b)).2)
        = a + b + l.length := by
  intro l
  induction l with
  | nil => intro a b; simp
  | cons r t ih =>
    intro a b
    cases hr : r.2 <;> simp only [List.foldl_cons, hr, if_true, if_false] <;>
      rw [ih] <;> simp <;> omega

/-- C9 as amended: in modify_protocol_name.py the claim holds — every
per-file exception (decode or save) is caught inside `process_file` and
becomes a `(path, False)` failure outcome, successes become
`(path, True)`, and the final tally counts every enumerated file exactly
once: successes + failures = number of files, for any completion order of
the worker pool (any permutation of the per-file results). In
dicom_sorting_tool.py, by contrast, only decode/decompress failures are
caught per file; any other per-file exception aborts the run via
`future.result()` (see the counterexample), and no tally is produced. -/
theorem c9_amended_per_file_isolation :
    (∀ (env : Protocol.Env) (all_files : List String) (results : List (String × Bool)),
      results.Perm (all_files.map (Protocol.process_file env)) →
      (Protocol.tallyCounts results).1 + (Protocol.tallyCounts results).2
        = all_files.length) ∧
    (∀ (env : Protocol.Env) (fp : String) (e : PyErr), env.decode fp = Except.error e →
      Protocol.process_file env fp = (fp, false)) ∧
    (∀ (env : Protocol.Env) (fp : String) (ds : Dataset) (e : PyErr),
      env.decode fp = Except.ok ds →
      env.save fp (Protocol.editProtocolName fp ds) = Except.error e →
      Protocol.process_file env fp = (fp, false)) ∧
    (∀ (env : Protocol.Env) (fp : String) (ds : Dataset),
      env.decode fp = Except.ok ds →
      env.save fp (Protocol.editProtocolName fp ds) = Except.ok () →
      Protocol.process_file env fp = (fp, true)) := by
  refine ⟨?_, ?_, ?_, ?_⟩
  · intro env all_files results hperm
    have hsum := tallyFold_sum results 0 0
    have hlen : results.length = all_files.length := by
      rw [hperm.length_eq, List.length_map]
    unfold Protocol.tallyCounts
    omega
  · intro env fp e h
    unfold Protocol.process_file
    rw [h]
  · intro env fp ds e hdec hsave
    unfold Protocol.process_file
    rw [hdec]
    simp [hsave]
  · intro env fp ds hdec hsave
    unfold Protocol.process_file
    rw [hdec]
    simp [hsave]

/-- Witness for C9 (amended): the tally law applied to a concrete run of
two files whose decodes both fail; both are counted, as failures. -/
theorem c9_amended_witness :
    (Protocol.tallyCounts (["f1", "f2"].map (Protocol.process_file
        ⟨fun _ => Except.error (PyErr.invalidDicom "bad"), fun _ _ => Except.ok ()⟩))).1
      + (Protocol.tallyCounts (["f1", "f2"].map (Protocol.process_file
        ⟨fun _ => Except.error (PyErr.invalidDicom "bad"), fun _ _ => Except.ok ()⟩))).2
      = (["f1", "f2"] : List String).length :=
  c9_amended_per_file_isolation.1
    ⟨fun _ => Except.error (PyErr.invalidDicom "bad"), fun _ _ => Except.ok ()⟩
    ["f1", "f2"] _ (List.Perm.refl _)

/-! ## Guarded overwrite (dicom_sort_series_filtering.py) -/

/-- C5: under the guarded-overwrite policy without the force flag, when the
computed destination path already exists `copy_or_move_dicom_image`
performs no write and no move — the filesystem is returned unchanged (so
the destination's content is untouched and the source is still present) —
and the file is reported as skipped. With the force flag set, the
destination is overwritten with the source's content (and on a move the
source is removed). -/
theorem c5_guarded_overwrite (S : String → String) (fs : FS) (missing : List String)
    (src_file dest_base_dir pat : String) (ds0 ds : Dataset)
    (anonymize : Bool) (id_map : Option (List (String × String))) (move : Bool)
    (missing' : List String)
    (hnd : isNonDicom src_file = false)
    (hanon : anonymizeGate anonymize id_map ds0 missing = (ds, missing'))
    (hsp : should_process_series (getAttrD ds "SeriesDescription")
      (getAttrD ds "SeriesNumber") = true) :
    (fsExists fs (dest_file_path_of S ds dest_base_dir pat) = true →
      copy_or_move_dicom_image S fs missing src_file dest_base_dir pat (Except.ok ds0)
          anonymize id_map move false
        = Except.ok (fs, missing', Action.skippedExists)) ∧
    (∀ content, fs.lookupFile src_file = some content →
      (copy_or_move_dicom_image S fs missing src_file dest_base_dir pat (Except.ok ds0)
          anonymize id_map false true
        = Except.ok (fs.write (dest_file_path_of S ds dest_base_dir pat) content, missing',
            Action.copied (dest_file_path_of S ds dest_base_dir pat))) ∧
      (copy_or_move_dicom_image S fs missing src_file dest_base_dir pat (Except.ok ds0)
          anonymize id_map true true
        = Except.ok ((fs.erase src_file).write (dest_file_path_of S ds dest_base_dir pat)
            content, missing', Action.moved (dest_file_path_of S ds dest_base_dir pat)))) := by
  constructor
  · intro hex
    unfold copy_or_move_dicom_image
    rw [hnd]
    simp only [Bool.false_eq_true, if_false, hanon, get_dicom_attribute_ok, hsp]
    simp [Bind.bind, Except.instMonad, Except.bind, hsp, hex]
  · intro content hsrc
    constructor
    · unfold copy_or_move_dicom_image
      rw [hnd]
      simp only [Bool.false_eq_true, if_false, hanon, get_dicom_attribute_ok, hsp]
      simp [Bind.bind, Except.instMonad, Except.bind, hsp, shutilCopy2, hsrc]
    · unfold copy_or_move_dicom_image
      rw [hnd]
      simp only [Bool.false_eq_true, if_false, hanon, get_dicom_attribute_ok, hsp]
      simp [Bind.bind, Except.instMonad, Except.bind, hsp, shutilMove, hsrc]

/-- Witness for C5: a concrete destination directory already holding the
computed destination file; without force the call returns the filesystem
unchanged and reports a skip, with force it overwrites. -/
theorem c5_guarded_overwrite_witness :
    (copy_or_move_dicom_image id
        ⟨[("out/P/T2_FLAIR/1.2.3.dcm", "OLD"), ("src.dcm", "NEW")]⟩ [] "src.dcm" "out"
        "%PatientID%/%SeriesDescription%"
        (Except.ok (⟨some "P", none, none, some "20200101", some "11", some "T2_FLAIR",
          some "1.2.3", none⟩ : Dataset)) false none false false
      = Except.ok (⟨[("out/P/T2_FLAIR/1.2.3.dcm", "OLD"), ("src.dcm", "NEW")]⟩, [],
          Action.skippedExists)) ∧
    (copy_or_move_dicom_image id
        ⟨[("out/P/T2_FLAIR/1.2.3.dcm", "OLD"), ("src.dcm", "NEW")]⟩ [] "src.dcm" "out"
        "%PatientID%/%SeriesDescription%"
        (Except.ok (⟨some "P", none, none, some "20200101", some "11", some "T2_FLAIR",
          some "1.2.3", none⟩ : Dataset)) false none false true
      = Except.ok ((⟨[("out/P/T2_FLAIR/1.2.3.dcm", "OLD"), ("src.dcm", "NEW")]⟩ : FS).write
          (dest_file_path_of id (⟨some "P", none, none, some "20200101", some "11",
            some "T2_FLAIR", some "1.2.3", none⟩ : Dataset) "out"
            "%PatientID%/%SeriesDescription%") "NEW", [],
          Action.copied (dest_file_path_of id (⟨some "P", none, none, some "20200101",
            some "11", some "T2_FLAIR", some "1.2.3", none⟩ : Dataset) "out"
            "%PatientID%/%SeriesDescription%"))) := by
  have h := c5_guarded_overwrite id
    ⟨[("out/P/T2_FLAIR/1.2.3.dcm", "OLD"), ("src.dcm", "NEW")]⟩ [] "src.dcm" "out"
    "%PatientID%/%SeriesDescription%"
    (⟨some "P", none, none, some "20200101", some "11", some "T2_FLAIR",
      some "1.2.3", none⟩ : Dataset)
    (⟨some "P", none, none, some "20200101", some "11", some "T2_FLAIR",
      some "1.2.3", none⟩ : Dataset)
    false none false [] rfl rfl (by decide)
  exact ⟨h.1 (by decide), (h.2 "NEW" (by decide)).1⟩

end BIDS
